import Mathlib

/-!
Verification of the youtube-upload scheduler core: the duration parser,
the schedule generator and tilde expansion (src/lib.rs), and the token
lifecycle manager of `authenticate` (src/youtube.rs).

Modelling conventions, used throughout:
* Rust `String`/`&str` values are Lean `String`s; parsing logic works on
  `String.data` (the list of characters).
* chrono `Duration` values are modelled as integer numbers of seconds
  (`Duration::hours(n)` = `n * 3600` seconds, `minutes` = `* 60`,
  `days` = `* 86400`); chrono `DateTime<Utc>` values are modelled as
  integer Unix timestamps in seconds.  chrono internals (sub-second
  precision, the library's own saturation bounds) are outside the model;
  integer casts written in the repository's own source
  (`i as i32`, `expires_in as i64`, `as_u64`) are modelled exactly.
* File-system reads are modelled by a function `String → Option String`
  from paths to contents (`none` = read error), and the `HOME`
  environment variable by an `Option String`.
-/

/-- Model of Rust `char::to_lowercase` as used by
`str::to_lowercase` in `parse_duration`, restricted to its ASCII action
(`'A'..='Z'` maps to `'a'..='z'`, every other character is unchanged);
the full Unicode case table is irrelevant to the parser's unit letters
and digits, which are all ASCII. -/
def lowerChar (c : Char) : Char :=
  if 65 ≤ c.toNat ∧ c.toNat ≤ 90 then Char.ofNat (c.toNat + 32) else c

/-- Model of Rust `str::to_lowercase` (see `lowerChar`). -/
def rustToLowercase (s : String) : String :=
  ⟨s.data.map lowerChar⟩

/-- Rust `char::is_whitespace`: the Unicode `White_Space` property. -/
def isRustWs (c : Char) : Bool :=
  decide ((9 ≤ c.toNat ∧ c.toNat ≤ 13) ∨ c.toNat = 32 ∨ c.toNat = 133 ∨
    c.toNat = 160 ∨ c.toNat = 0x1680 ∨ (0x2000 ≤ c.toNat ∧ c.toNat ≤ 0x200A) ∨
    c.toNat = 0x2028 ∨ c.toNat = 0x2029 ∨ c.toNat = 0x202F ∨
    c.toNat = 0x205F ∨ c.toNat = 0x3000)

/-- Model of Rust `str::trim` on a character list: remove leading and
trailing whitespace. -/
def rustTrim (l : List Char) : List Char :=
  ((l.dropWhile isRustWs).reverse.dropWhile isRustWs).reverse

/-- Model of Rust `str::trim` on strings. -/
def rustTrimS (s : String) : String :=
  ⟨rustTrim s.data⟩

/-- Model of Rust `str::trim_end_matches` for a single-character
pattern: remove every trailing occurrence of the character. -/
def dropTrailing (c : Char) (l : List Char) : List Char :=
  (l.reverse.dropWhile (· == c)).reverse

/-- Accumulate the numeric value of a list of decimal digits
(most significant first), as Rust's integer `FromStr` does. -/
def digitsToNat (l : List Char) : Nat :=
  l.foldl (fun acc c => acc * 10 + (c.toNat - 48)) 0

/-- Model of Rust `str::parse::<i64>()`: an optional `+`/`-` sign
followed by one or more ASCII decimal digits, whose value must fit in a
signed 64-bit integer; everything else (empty input, stray characters,
whitespace, overflow) is a parse error (`none`). -/
def parseI64 (l : List Char) : Option Int :=
  let core : Int → List Char → Option Int := fun sign digits =>
    if digits ≠ [] ∧ digits.all (fun c => 48 ≤ c.toNat ∧ c.toNat ≤ 57) then
      let v : Int := sign * digitsToNat digits
      if -(2 ^ 63) ≤ v ∧ v ≤ 2 ^ 63 - 1 then some v else none
    else none
  match l with
  | '+' :: rest => core 1 rest
  | '-' :: rest => core (-1) rest
  | _ => core 1 l

/-- The branch structure of `parse_duration` (src/lib.rs:96-113), after
the initial `to_lowercase`, over the lower-cased character list.
`ends_with "h"` for a one-character pattern is "the last character is
`'h'`" (`getLast?`); `trim_end_matches` removes all trailing copies of
the unit character (`dropTrailing`); `Duration::hours/minutes/days` are
seconds multiples.  A numeric parse failure propagates as `none`. -/
def parseDurationCore (l : List Char) : Option Int :=
  if l.getLast? = some 'h' then
    (parseI64 (dropTrailing 'h' l)).map (fun n => n * 3600)
  else if l.getLast? = some 'm' then
    (parseI64 (dropTrailing 'm' l)).map (fun n => n * 60)
  else if l.getLast? = some 'd' then
    (parseI64 (dropTrailing 'd' l)).map (fun n => n * 86400)
  else
    (parseI64 l).map (fun n => n * 3600)

/-- Model of `parse_duration` (src/lib.rs:96-113): lower-case the input,
then dispatch on the trailing unit letter; the result is the parsed
duration in seconds. -/
def parse_duration (s : String) : Option Int :=
  parseDurationCore (s.data.map lowerChar)

/-- Model of the Rust cast `i as i32` applied to a `usize` loop index
(src/lib.rs:143): truncate to 32 bits and reinterpret as two's
complement. -/
def usizeAsI32 (i : Nat) : Int :=
  let m : Nat := i % 2 ^ 32
  if m < 2 ^ 31 then (m : Int) else (m : Int) - 2 ^ 32

/-- The schedule loop of `generate_schedule` (src/lib.rs:142-145):
entry `i` is `start + interval * (i as i32)`. -/
def scheduleList (start interval : Int) (count : Nat) : List Int :=
  (List.range count).map (fun i => start + interval * usizeAsI32 i)

/-- Model of `List.isPrefixOf`-based `str::starts_with("~/")` together
with `str::replacen("~", home, 1)` on a character list: replace the
first occurrence of the (non-empty) pattern. -/
def listReplaceFirst (pat repl : List Char) : List Char → List Char
  | [] => []
  | c :: rest =>
    if pat.isPrefixOf (c :: rest) then repl ++ (c :: rest).drop pat.length
    else c :: listReplaceFirst pat repl rest

/-- Model of Rust `str::replacen(pat, to, 1)` (the only use in the
source has the one-character pattern `"~"`). -/
def rustReplacen1 (s pat repl : String) : String :=
  ⟨listReplaceFirst pat.data repl.data s.data⟩

/-- Model of `expand_tilde` (src/lib.rs:150-160).  `home` is the value
of the `HOME` environment variable (`none` when unset); `starts_with
"~/"` is prefix testing on the character list. -/
def expand_tilde (home : Option String) (path : String) : String :=
  if ['~', '/'].isPrefixOf path.data then
    match home with
    | some h => rustReplacen1 path "~" h
    | none => path
  else path

/-- The error cases of `generate_schedule` (src/lib.rs:126-135), each
keeping the identifying data its `format!` message carries: the
expanded path for a read failure, the expanded path for a numeric parse
failure of the file contents, and the out-of-range timestamp value
(the formatted io/parse error text itself is elided). -/
inductive GenError
  | readFailed (path : String)
  | invalidTimestamp (path : String)
  | invalidUnixTimestamp (ts : Int)
deriving DecidableEq

/-- Smallest Unix timestamp accepted by chrono's
`DateTime::from_timestamp` (January 1, -262144). -/
def chronoMinTs : Int := -8334601228800

/-- Largest Unix timestamp accepted by chrono's
`DateTime::from_timestamp` (December 31, 262142). -/
def chronoMaxTs : Int := 8210266876799

/-- Model of chrono `DateTime::from_timestamp(ts, 0)`: `some` exactly on
the library's representable range, as the identity on the timestamp. -/
def fromTimestamp (ts : Int) : Option Int :=
  if chronoMinTs ≤ ts ∧ ts ≤ chronoMaxTs then some ts else none

/-- Model of `generate_schedule` (src/lib.rs:115-148).  `fs` maps a path
to its contents (`none` = read error), `home` models `HOME`, and `now`
models `Utc::now()` (used only by the default anchor branch).  Anchor
resolution: timestamp file first (read, trim, parse as `i64`, convert
with `DateTime::from_timestamp`), else the explicit start time, else
`now + 1 hour`; then the schedule loop. -/
def generate_schedule (fs : String → Option String) (home : Option String)
    (now : Int) (video_count : Nat) (interval : Int)
    (start_time : Option Int) (timestamp_file : Option String) :
    Except GenError (List Int) :=
  match timestamp_file with
  | some file_path =>
    let expanded_path := expand_tilde home file_path
    match fs expanded_path with
    | none => .error (.readFailed expanded_path)
    | some timestamp_str =>
      match parseI64 (rustTrim timestamp_str.data) with
      | none => .error (.invalidTimestamp expanded_path)
      | some timestamp =>
        match fromTimestamp timestamp with
        | none => .error (.invalidUnixTimestamp timestamp)
        | some start => .ok (scheduleList start interval video_count)
  | none =>
    match start_time with
    | some start_time => .ok (scheduleList start_time interval video_count)
    | none => .ok (scheduleList (now + 3600) interval video_count)

/-- The `StoredTokens` struct (src/youtube.rs:34-39); `expires_at` is a
Unix timestamp in seconds. -/
structure StoredTokens where
  access_token : String
  refresh_token : Option String
  expires_at : Option Int
deriving DecidableEq

/-- The three failure classes of `load_tokens` (src/youtube.rs:197-202):
`fs::read_to_string` fails with io kind `NotFound`, it fails with any
other io error, or `serde_json::from_str` rejects the contents. -/
inductive LoadError
  | notFound
  | readFailed
  | malformed
deriving DecidableEq

/-- Behaviour of the token endpoint for the refresh POST
(src/youtube.rs:166-173): either the transport fails (`send()` or body
JSON decoding errors), or a JSON value arrives, of which the code reads
only the optional string field `access_token` and the optional u64
field `expires_in` (`as_u64` yields `none` for a missing or non-u64
value).  The HTTP status is never inspected by the code. -/
inductive RefreshResponse
  | transportError
  | json (access_token : Option String) (expires_in : Option Nat)
deriving DecidableEq

/-- Outcome of the interactive flow's external steps
(src/youtube.rs:105-153): reading the code from stdin or the
authorization-code exchange fails, or the exchange yields an access
token, an optional refresh token and an optional `expires_in` (seconds,
from `std::time::Duration::as_secs`). -/
inductive FlowResult
  | flowError
  | tokens (access_token : String) (refresh_token : Option String)
      (expires_in : Option Nat)
deriving DecidableEq

/-- Model of the Rust cast `u64 as i64` (src/youtube.rs:181 applies it
to `expires_in`): reinterpret as two's complement. -/
def u64AsI64 (n : Nat) : Int :=
  let m : Nat := n % 2 ^ 64
  if m < 2 ^ 63 then (m : Int) else (m : Int) - 2 ^ 64

/-- Model of `refresh_token` (src/youtube.rs:155-188): on a transport
error or a response without an `access_token` string, fail; otherwise
build `StoredTokens` with the new access token, the *original* refresh
token, and `expires_at = now + (expires_in.unwrap_or(3600) as i64)`. -/
def refresh_token (now : Int) (resp : RefreshResponse) (rt : String) :
    Option StoredTokens :=
  match resp with
  | .transportError => none
  | .json none _ => none
  | .json (some a) ei =>
    some { access_token := a, refresh_token := some rt,
           expires_at := some (now + u64AsI64 (ei.getD 3600)) }

/-- The ways `authenticate` can fail in the model: `store_tokens`'s
`fs::write` fails, or the interactive flow fails. -/
inductive AuthError
  | storeFailed
  | oauthFlowFailed
deriving DecidableEq

/-- Environment of one `authenticate` run: the result of `load_tokens`,
the current time (the several `Utc::now()` calls of one run are modelled
as a single instant), the token endpoint's behaviour for the refresh
POST, the interactive flow's behaviour, and whether `fs::write` in
`store_tokens` succeeds. -/
structure AuthEnv where
  load : Except LoadError StoredTokens
  now : Int
  refresh : RefreshResponse
  flow : FlowResult
  storeOk : Bool

/-- Observable outcome of `authenticate`: its `Result`, the final
`self.access_token`, the `store_tokens` writes (in order), the number of
refresh POSTs sent, and whether `perform_oauth_flow` ran. -/
structure AuthOutcome where
  result : Except AuthError Unit
  access_token : String
  storeWrites : List StoredTokens
  refreshCalls : Nat
  ranOauthFlow : Bool

/-- Model of `perform_oauth_flow` (src/youtube.rs:105-153), entered with
`priorRefresh` refresh POSTs already sent and `a0` the current
`self.access_token`.  On success: `expires_at` is set only when the
response carries `expires_in` (no 3600 default here), `self.access_token`
is set, then the tokens are stored. -/
def perform_oauth_flow (env : AuthEnv) (a0 : String) (priorRefresh : Nat) :
    AuthOutcome :=
  match env.flow with
  | .flowError =>
    { result := .error .oauthFlowFailed, access_token := a0,
      storeWrites := [], refreshCalls := priorRefresh, ranOauthFlow := true }
  | .tokens a r ei =>
    let t : StoredTokens :=
      { access_token := a, refresh_token := r,
        expires_at := ei.map (fun e => env.now + u64AsI64 e) }
    { result := if env.storeOk then .ok () else .error .storeFailed,
      access_token := a, storeWrites := [t],
      refreshCalls := priorRefresh, ranOauthFlow := true }

/-- Model of `authenticate` (src/youtube.rs:77-103), with `a0` the
incoming `self.access_token`.  Reuse when the stored `expires_at` is
present and later than `now + 5 minutes`; otherwise attempt one refresh
when a refresh token is stored (persisting its result); otherwise, and
on load failure or refresh failure, run the interactive flow. -/
def authenticate (env : AuthEnv) (a0 : String) : AuthOutcome :=
  match env.load with
  | .ok tokens =>
    let reusable : Bool :=
      match tokens.expires_at with
      | some e => decide (env.now + 5 * 60 < e)
      | none => false
    if reusable then
      { result := .ok (), access_token := tokens.access_token,
        storeWrites := [], refreshCalls := 0, ranOauthFlow := false }
    else
      match tokens.refresh_token with
      | some rt =>
        match refresh_token env.now env.refresh rt with
        | some new_tokens =>
          { result := if env.storeOk then .ok () else .error .storeFailed,
            access_token := new_tokens.access_token,
            storeWrites := [new_tokens], refreshCalls := 1,
            ranOauthFlow := false }
        | none => perform_oauth_flow env a0 1
      | none => perform_oauth_flow env a0 0
  | .error _ => perform_oauth_flow env a0 0

instance {α β : Type} [DecidableEq α] [DecidableEq β] :
    DecidableEq (Except α β) := fun a b =>
  match a, b with
  | .ok x, .ok y =>
    if h : x = y then .isTrue (congrArg Except.ok h)
    else .isFalse (fun he => h (Except.ok.inj he))
  | .error x, .error y =>
    if h : x = y then .isTrue (congrArg Except.error h)
    else .isFalse (fun he => h (Except.error.inj he))
  | .ok _, .error _ => .isFalse (fun he => Except.noConfusion he)
  | .error _, .ok _ => .isFalse (fun he => Except.noConfusion he)

theorem lowerChar_idem (c : Char) : lowerChar (lowerChar c) = lowerChar c := by
  by_cases h : 65 ≤ c.toNat ∧ c.toNat ≤ 90
  · unfold lowerChar
    rw [if_pos h]
    obtain ⟨h1, h2⟩ := h
    set k := c.toNat with hk
    interval_cases k <;> decide
  · unfold lowerChar
    rw [if_neg h, if_neg h]

theorem usizeAsI32_small (i : Nat) (h : i < 2 ^ 31) : usizeAsI32 i = i := by
  unfold usizeAsI32
  have h32 : i % 2 ^ 32 = i := Nat.mod_eq_of_lt (by omega)
  simp only [h32]
  rw [if_pos h]

theorem u64AsI64_small (n : Nat) (h : n < 2 ^ 63) : u64AsI64 n = n := by
  unfold u64AsI64
  have h64 : n % 2 ^ 64 = n := Nat.mod_eq_of_lt (by omega)
  simp only [h64]
  rw [if_pos h]

/-- C5: if the lower-cased string ends in the unit letter `h`, `m` or
`d`, `parse_duration` succeeds exactly when the prefix left after
removing the trailing copies of that unit letter parses as a signed
64-bit integer, yielding that many hours, minutes or days; a numeric
parse failure of the prefix yields a parse error.  No unit beyond
h/m/d is recognized: when the lower-cased string ends in none of the
three unit letters, the whole string must parse as a signed 64-bit
integer, interpreted as hours, so any other trailing letter is a parse
error.  (The claim's "everything before that final unit character" is
corrected to `trim_end_matches` semantics, which removes every
trailing copy of the unit character: see the counterexample at
`"2hh"`.) -/
theorem parse_duration_unit_suffix (s : String) :
    ((rustToLowercase s).data.getLast? = some 'h' →
      parse_duration s =
        (parseI64 (dropTrailing 'h' (rustToLowercase s).data)).map
          (fun n => n * 3600)) ∧
    ((rustToLowercase s).data.getLast? = some 'm' →
      parse_duration s =
        (parseI64 (dropTrailing 'm' (rustToLowercase s).data)).map
          (fun n => n * 60)) ∧
    ((rustToLowercase s).data.getLast? = some 'd' →
      parse_duration s =
        (parseI64 (dropTrailing 'd' (rustToLowercase s).data)).map
          (fun n => n * 86400)) ∧
    ((rustToLowercase s).data.getLast? ≠ some 'h' →
      (rustToLowercase s).data.getLast? ≠ some 'm' →
      (rustToLowercase s).data.getLast? ≠ some 'd' →
      parse_duration s =
        (parseI64 (rustToLowercase s).data).map (fun n => n * 3600)) := by
  have hdata : (rustToLowercase s).data = s.data.map lowerChar := rfl
  rw [hdata]
  unfold parse_duration parseDurationCore
  refine ⟨fun h => ?_, fun h => ?_, fun h => ?_, fun hh hm hd => ?_⟩
  · rw [if_pos h]
  · rw [if_neg (by simp [h]), if_pos h]
  · rw [if_neg (by simp [h]), if_neg (by simp [h]), if_pos h]
  · rw [if_neg hh, if_neg hm, if_neg hd]

/-- Witness for C5 at the inputs `"30m"` (unit branch) and `"3s"` (no
recognized unit: the whole string must parse as an integer, and does
not, so the result is a parse error, not 3 seconds). -/
theorem parse_duration_unit_suffix_witness :
    ((rustToLowercase "30m").data.getLast? = some 'm' ∧
      parse_duration "30m" = some 1800) ∧
    ((rustToLowercase "3s").data.getLast? ≠ some 'h' ∧
      parse_duration "3s" = none) := by
  refine ⟨⟨by decide, ?_⟩, ⟨by decide, ?_⟩⟩
  · have h := (parse_duration_unit_suffix "30m").2.1 (by decide)
    exact h.trans (by decide)
  · have h := (parse_duration_unit_suffix "3s").2.2.2
      (by decide) (by decide) (by decide)
    exact h.trans (by decide)

/-- C5 counterexample: `"2hh"` (already lower case) ends in the unit
character `'h'`, and everything before that final character (`"2h"`)
does not parse as an integer — so the claim as stated demands a parse
error — yet `parse_duration` succeeds with 2 hours, because
`trim_end_matches` strips every trailing `'h'`. -/
theorem parse_duration_trailing_units_cex :
    (rustToLowercase "2hh").data.getLast? = some 'h' ∧
    parseI64 (rustToLowercase "2hh").data.dropLast = none ∧
    parse_duration "2hh" = some 7200 := by decide

/-- C6 (amended): `parse_duration` is invariant under lower-casing the
input: for every string `s`, `parse_duration s` equals
`parse_duration (to_lowercase s)`.  It is *not* invariant under
trimming surrounding whitespace (the function never trims): see the
counterexample. -/
theorem parse_duration_lowercase_invariant (s : String) :
    parse_duration s = parse_duration (rustToLowercase s) := by
  unfold parse_duration
  have hdata : (rustToLowercase s).data = s.data.map lowerChar := rfl
  rw [hdata, List.map_map]
  have : lowerChar ∘ lowerChar = lowerChar := funext lowerChar_idem
  rw [this]

/-- C6 counterexample: the claim's whitespace half fails at `" 2h "`:
`parse_duration " 2h "` is a parse error while `parse_duration` of its
trimmed (and lower-cased) form `"2h"` is 2 hours — the code lower-cases
but never trims. -/
theorem parse_duration_whitespace_cex :
    parse_duration " 2h " = none ∧
    parse_duration (rustTrimS (rustToLowercase " 2h ")) = some 7200 := by
  decide

/-- C10: `expand_tilde` returns the path unchanged unless it starts
with `"~/"` and `HOME` is set, in which case exactly the leading `"~"`
is replaced by the value of `HOME`; a `"~/"` path with `HOME` unset is
also returned unchanged. -/
theorem expand_tilde_cases (home : Option String) (path : String) :
    (∀ h rest, home = some h → path.data = '~' :: '/' :: rest →
      expand_tilde home path = ⟨h.data ++ '/' :: rest⟩) ∧
    (home = none → expand_tilde home path = path) ∧
    (['~', '/'].isPrefixOf path.data = false →
      expand_tilde home path = path) := by
  refine ⟨fun h rest hh hp => ?_, fun hh => ?_, fun hp => ?_⟩
  · obtain ⟨l⟩ := path
    have hl : l = '~' :: '/' :: rest := hp
    subst hl
    subst hh
    simp [expand_tilde, rustReplacen1, listReplaceFirst, List.isPrefixOf]
  · unfold expand_tilde
    rw [hh]
    split <;> rfl
  · unfold expand_tilde
    rw [hp]
    rfl

/-- Witness for C10: with `HOME = "/root"`, the path `"~/x"` expands to
`"/root/x"`. -/
theorem expand_tilde_cases_witness :
    expand_tilde (some "/root") "~/x" = "/root/x" := by
  have h := (expand_tilde_cases (some "/root") "~/x").1 "/root" ['x'] rfl rfl
  exact h.trans (by decide)

/-- C1 (amended): with an explicit anchor and no timestamp file,
`generate_schedule` returns `Ok` with exactly `count` entries for every
`count ≥ 0` (`count = 0` gives `Ok []`, not an error), and entry `i`
equals `anchor + i * interval` for every `i < count` with `i < 2^31`;
for indices from `2^31` on, the code's `i as i32` cast wraps (see the
counterexample), which is the only restriction on the claim. -/
theorem generate_schedule_explicit_anchor (fs : String → Option String)
    (home : Option String) (now : Int) (count : Nat) (interval anchor : Int) :
    generate_schedule fs home now count interval (some anchor) none
      = .ok (scheduleList anchor interval count) ∧
    (scheduleList anchor interval count).length = count ∧
    (∀ i : Nat, i < count → i < 2 ^ 31 →
      (scheduleList anchor interval count)[i]? =
        some (anchor + (i : Int) * interval)) := by
  refine ⟨rfl, by simp [scheduleList], fun i hi h31 => ?_⟩
  simp [scheduleList, List.getElem?_map, List.getElem?_range, hi,
    usizeAsI32_small i h31, Int.mul_comm]

/-- Witness for C1 at the spec's example scenario: 3 entries, a 2-hour
interval, anchor 2024-01-01T12:00:00Z (Unix 1704110400). -/
theorem generate_schedule_explicit_anchor_witness :
    generate_schedule (fun _ => none) none 0 3 7200 (some 1704110400) none
      = .ok [1704110400, 1704117600, 1704124800] ∧
    (scheduleList 1704110400 7200 3)[2]? = some (1704110400 + (2 : Int) * 7200) := by
  have h := generate_schedule_explicit_anchor (fun _ => none) none 0 3 7200 1704110400
  exact ⟨h.1.trans (by decide), h.2.2 2 (by decide) (by decide)⟩

/-- C1 counterexample: at `count = 2^31 + 1` the entry at index `2^31`
is `anchor + interval * (-2^31)` — the `usize` index is cast to `i32`
and wraps — not `anchor + 2^31 * interval` as the claim states (with
`anchor = 0`, `interval = 3600`: `-7730941132800` instead of
`7730941132800`). -/
theorem generate_schedule_index_wrap_cex :
    generate_schedule (fun _ => none) none 0 (2 ^ 31 + 1) 3600 (some 0) none
      = .ok (scheduleList 0 3600 (2 ^ 31 + 1)) ∧
    (scheduleList 0 3600 (2 ^ 31 + 1))[2 ^ 31]? = some (-7730941132800) ∧
    ((-7730941132800 : Int) ≠ 0 + (2 ^ 31 : Int) * 3600) := by
  refine ⟨rfl, ?_, by decide⟩
  have h2 : (scheduleList 0 3600 (2 ^ 31 + 1))[2 ^ 31]? =
      some ((0 : Int) + 3600 * usizeAsI32 (2 ^ 31)) := by
    simp [scheduleList, List.getElem?_map, List.getElem?_range]
  exact h2.trans (by decide)

/-- C7: when both a timestamp-file path and an explicit start time are
supplied, the anchor is the file's contents trimmed and parsed as Unix
epoch seconds, and the explicit start time is ignored (the result does
not depend on it at all). -/
theorem generate_schedule_timestamp_precedence (fs : String → Option String)
    (home : Option String) (now : Int) (count : Nat) (interval st : Int)
    (path content : String) (ts : Int)
    (hread : fs (expand_tilde home path) = some content)
    (hparse : parseI64 (rustTrim content.data) = some ts)
    (hrange : chronoMinTs ≤ ts ∧ ts ≤ chronoMaxTs) :
    generate_schedule fs home now count interval (some st) (some path)
      = .ok (scheduleList ts interval count) ∧
    generate_schedule fs home now count interval (some st) (some path)
      = generate_schedule fs home now count interval none (some path) := by
  constructor
  · simp only [generate_schedule, hread, hparse, fromTimestamp, if_pos hrange]
  · rfl

/-- Witness for C7: the timestamp file holds `" 1704110400 "` while the
explicit start time is 0; the anchor is 1704110400 and changing the
start time changes nothing. -/
theorem generate_schedule_timestamp_precedence_witness :
    generate_schedule
        (fun p => if p == "ts.txt" then some " 1704110400 " else none)
        none 0 2 3600 (some 0) (some "ts.txt")
      = .ok [1704110400, 1704114000] ∧
    generate_schedule
        (fun p => if p == "ts.txt" then some " 1704110400 " else none)
        none 0 2 3600 (some 0) (some "ts.txt")
      = generate_schedule
          (fun p => if p == "ts.txt" then some " 1704110400 " else none)
          none 0 2 3600 none (some "ts.txt") := by
  have h := generate_schedule_timestamp_precedence
    (fun p => if p == "ts.txt" then some " 1704110400 " else none)
    none 0 2 3600 0 "ts.txt" " 1704110400 " 1704110400
    (by decide) (by decide) (by decide)
  exact ⟨h.1.trans (by decide), h.2⟩

/-- C8: with a timestamp-file path supplied, an unreadable file, a
non-numeric (or non-`i64`) trimmed content, and an out-of-range epoch
value each make `generate_schedule` return the corresponding error
carrying the offending expanded path or timestamp value; none of these
cases falls back to the explicit start time or to "now" (the model is a
total function, so no case panics). -/
theorem generate_schedule_invalid_source (fs : String → Option String)
    (home : Option String) (now : Int) (count : Nat) (interval : Int)
    (st : Option Int) (path : String) :
    (fs (expand_tilde home path) = none →
      generate_schedule fs home now count interval st (some path)
        = .error (.readFailed (expand_tilde home path))) ∧
    (∀ content, fs (expand_tilde home path) = some content →
      parseI64 (rustTrim content.data) = none →
      generate_schedule fs home now count interval st (some path)
        = .error (.invalidTimestamp (expand_tilde home path))) ∧
    (∀ content ts, fs (expand_tilde home path) = some content →
      parseI64 (rustTrim content.data) = some ts →
      (ts < chronoMinTs ∨ chronoMaxTs < ts) →
      generate_schedule fs home now count interval st (some path)
        = .error (.invalidUnixTimestamp ts)) := by
  refine ⟨fun hread => ?_, fun content hread hparse => ?_,
    fun content ts hread hparse hout => ?_⟩
  · simp only [generate_schedule, hread]
  · simp only [generate_schedule, hread, hparse]
  · have hnone : fromTimestamp ts = none := by
      unfold fromTimestamp
      rw [if_neg (by omega)]
    simp only [generate_schedule, hread, hparse, hnone]

/-- Witness for C8: a missing timestamp file yields the read-failure
error carrying the path, not a schedule. -/
theorem generate_schedule_invalid_source_witness :
    generate_schedule (fun _ => none) none 0 2 3600 none (some "ts.txt")
      = .error (.readFailed "ts.txt") := by
  have h := (generate_schedule_invalid_source
    (fun _ => none) none 0 2 3600 none "ts.txt").1 rfl
  exact h.trans (by decide)

theorem perform_oauth_flow_ran (env : AuthEnv) (a0 : String) (k : Nat) :
    (perform_oauth_flow env a0 k).ranOauthFlow = true ∧
    (perform_oauth_flow env a0 k).refreshCalls = k := by
  cases h : env.flow <;> simp [perform_oauth_flow, h]

/-- C4: when the stored credentials load and their `expires_at` is
later than `now + 5` minutes, `authenticate` performs no refresh POST,
does not run the interactive flow, writes nothing to the store, adopts
the stored access token unchanged and returns `Ok`. -/
theorem authenticate_reuse (env : AuthEnv) (a0 : String) (t : StoredTokens)
    (e : Int) (hload : env.load = .ok t) (hexp : t.expires_at = some e)
    (hfresh : env.now + 5 * 60 < e) :
    authenticate env a0 =
      { result := .ok (), access_token := t.access_token, storeWrites := [],
        refreshCalls := 0, ranOauthFlow := false } := by
  simp [authenticate, hload, hexp, hfresh]
  intro h
  exfalso
  omega

/-- Witness for C4: stored token expiring at 1000 with `now = 0`. -/
theorem authenticate_reuse_witness :
    authenticate
        { load := .ok { access_token := "tok", refresh_token := some "rt",
                        expires_at := some 1000 },
          now := 0, refresh := .transportError, flow := .flowError,
          storeOk := true } "" =
      { result := .ok (), access_token := "tok", storeWrites := [],
        refreshCalls := 0, ranOauthFlow := false } :=
  authenticate_reuse _ ""
    { access_token := "tok", refresh_token := some "rt",
      expires_at := some 1000 } 1000 rfl rfl (by decide)

/-- C2 (amended): when the stored tokens load but are not reusable, a
refresh token is stored, the endpoint's response carries a new access
token, and the store write succeeds, `authenticate` returns `Ok` having
persisted exactly one credential set: the new access token (which is
also the active token), the *original* refresh token, and
`expires_at = now + expires_in` with `expires_in` defaulting to 3600
when absent — provided `expires_in < 2^63`; beyond that the code's
`u64 as i64` cast wraps (see the counterexample), which is the only
restriction on the claim. -/
theorem authenticate_refresh_success (env : AuthEnv) (a0 : String)
    (t : StoredTokens) (rt newAT : String) (ei : Option Nat)
    (hload : env.load = .ok t)
    (hstale : ∀ e, t.expires_at = some e → e ≤ env.now + 5 * 60)
    (hrt : t.refresh_token = some rt)
    (hresp : env.refresh = .json (some newAT) ei)
    (hei : ∀ v, ei = some v → v < 2 ^ 63)
    (hstore : env.storeOk = true) :
    authenticate env a0 =
      { result := .ok (), access_token := newAT,
        storeWrites := [{ access_token := newAT, refresh_token := some rt,
                          expires_at := some (env.now + (ei.getD 3600 : Nat)) }],
        refreshCalls := 1, ranOauthFlow := false } := by
  have hreuse : (match t.expires_at with
      | some e => decide (env.now + 300 < e)
      | none => false) = false := by
    cases hexp : t.expires_at with
    | none => rfl
    | some e => exact decide_eq_false (by have h := hstale e hexp; omega)
  have hsmall : u64AsI64 (ei.getD 3600) = (ei.getD 3600 : Nat) := by
    refine u64AsI64_small _ ?_
    cases hv : ei with
    | none => decide
    | some v => exact hei v hv
  simp [authenticate, hload, hreuse, hrt, refresh_token, hresp, hstore, hsmall]

/-- Witness for C2: a stale token with refresh token `"rt"`, a response
with access token `"new"` and no `expires_in`; the stored set keeps
`"rt"` and gets `expires_at = now + 3600`. -/
theorem authenticate_refresh_success_witness :
    authenticate
        { load := .ok { access_token := "old", refresh_token := some "rt",
                        expires_at := some 0 },
          now := 100, refresh := .json (some "new") none,
          flow := .flowError, storeOk := true } "" =
      { result := .ok (), access_token := "new",
        storeWrites := [{ access_token := "new", refresh_token := some "rt",
                          expires_at := some 3700 }],
        refreshCalls := 1, ranOauthFlow := false } := by
  have h := authenticate_refresh_success
    { load := .ok { access_token := "old", refresh_token := some "rt",
                    expires_at := some 0 },
      now := 100, refresh := .json (some "new") none,
      flow := .flowError, storeOk := true } ""
    { access_token := "old", refresh_token := some "rt", expires_at := some 0 }
    "rt" "new" none rfl
    (fun e he => by cases he; decide) rfl rfl
    (fun v hv => by cases hv) rfl
  exact h.trans (by norm_num)

/-- C2 counterexample: with `now = 0` and the endpoint returning
`expires_in = 2^64 - 3600`, the persisted `expires_at` is `-3600` (the
`u64` value is cast to `i64` and wraps), not
`now + expires_in = 2^64 - 3600` as the claim states. -/
theorem authenticate_refresh_expiry_wrap_cex :
    (authenticate
        { load := .ok { access_token := "old", refresh_token := some "rt",
                        expires_at := some 0 },
          now := 0, refresh := .json (some "new") (some (2 ^ 64 - 3600)),
          flow := .flowError, storeOk := true } "").storeWrites =
      [{ access_token := "new", refresh_token := some "rt",
         expires_at := some (-3600) }] ∧
    ((-3600 : Int) ≠ (0 : Int) + ((2 ^ 64 - 3600 : Nat) : Int)) := by
  constructor
  · rfl
  · decide

/-- C3: when the stored tokens load but are not reusable, a refresh
token is present, and the refresh exchange fails (transport error or a
response whose JSON has no `access_token` string), `authenticate` does
not stop with an error there: it behaves exactly as the interactive
authorization flow (entered with the one refresh POST already sent). -/
theorem authenticate_refresh_failure (env : AuthEnv) (a0 : String)
    (t : StoredTokens) (rt : String)
    (hload : env.load = .ok t)
    (hstale : ∀ e, t.expires_at = some e → e ≤ env.now + 5 * 60)
    (hrt : t.refresh_token = some rt)
    (hfail : ∀ a ei, env.refresh ≠ .json (some a) ei) :
    authenticate env a0 = perform_oauth_flow env a0 1 ∧
    (authenticate env a0).ranOauthFlow = true := by
  have hreuse : (match t.expires_at with
      | some e => decide (env.now + 300 < e)
      | none => false) = false := by
    cases hexp : t.expires_at with
    | none => rfl
    | some e => exact decide_eq_false (by have h := hstale e hexp; omega)
  have hnone : refresh_token env.now env.refresh rt = none := by
    cases hr : env.refresh with
    | transportError => rfl
    | json a ei =>
      cases a with
      | none => rfl
      | some a => exact absurd hr (hfail a ei)
  have hmain : authenticate env a0 = perform_oauth_flow env a0 1 := by
    simp [authenticate, hload, hreuse, hrt, hnone]
  exact ⟨hmain, hmain ▸ (perform_oauth_flow_ran env a0 1).1⟩

/-- Witness for C3: a stale stored token, a transport error on the
refresh POST, and an interactive flow that then succeeds. -/
theorem authenticate_refresh_failure_witness :
    authenticate
        { load := .ok { access_token := "old", refresh_token := some "rt",
                        expires_at := none },
          now := 0, refresh := .transportError,
          flow := .tokens "fresh" none none, storeOk := true } "x" =
      perform_oauth_flow
        { load := .ok { access_token := "old", refresh_token := some "rt",
                        expires_at := none },
          now := 0, refresh := .transportError,
          flow := .tokens "fresh" none none, storeOk := true } "x" 1 ∧
    (authenticate
        { load := .ok { access_token := "old", refresh_token := some "rt",
                        expires_at := none },
          now := 0, refresh := .transportError,
          flow := .tokens "fresh" none none, storeOk := true } "x").ranOauthFlow
      = true :=
  authenticate_refresh_failure _ "x"
    { access_token := "old", refresh_token := some "rt", expires_at := none }
    "rt" rfl (fun e he => by cases he) rfl
    (fun a ei h => by cases h)

/-- C9: when loading the stored credentials fails — the three failure
classes `NotFound`, `ReadFailed` and `Malformed` are pairwise distinct —
`authenticate` attempts neither reuse nor refresh (no refresh POST is
sent) and behaves exactly as the interactive authorization flow. -/
theorem authenticate_load_failure (env : AuthEnv) (a0 : String)
    (e : LoadError) (hload : env.load = .error e) :
    authenticate env a0 = perform_oauth_flow env a0 0 ∧
    (authenticate env a0).refreshCalls = 0 ∧
    (authenticate env a0).ranOauthFlow = true ∧
    (LoadError.notFound ≠ LoadError.readFailed ∧
     LoadError.notFound ≠ LoadError.malformed ∧
     LoadError.readFailed ≠ LoadError.malformed) := by
  have hmain : authenticate env a0 = perform_oauth_flow env a0 0 := by
    simp [authenticate, hload]
  exact ⟨hmain, hmain ▸ (perform_oauth_flow_ran env a0 0).2,
    hmain ▸ (perform_oauth_flow_ran env a0 0).1, by decide, by decide, by decide⟩

/-- Witness for C9: a malformed credential file sends `authenticate`
straight to the interactive flow with no refresh POST. -/
theorem authenticate_load_failure_witness :
    authenticate
        { load := .error .malformed, now := 0, refresh := .transportError,
          flow := .tokens "fresh" (some "r") (some 3599), storeOk := true } "" =
      perform_oauth_flow
        { load := .error .malformed, now := 0, refresh := .transportError,
          flow := .tokens "fresh" (some "r") (some 3599), storeOk := true } "" 0 ∧
    (authenticate
        { load := .error .malformed, now := 0, refresh := .transportError,
          flow := .tokens "fresh" (some "r") (some 3599),
          storeOk := true } "").refreshCalls = 0 ∧
    (authenticate
        { load := .error .malformed, now := 0, refresh := .transportError,
          flow := .tokens "fresh" (some "r") (some 3599),
          storeOk := true } "").ranOauthFlow = true ∧
    (LoadError.notFound ≠ LoadError.readFailed ∧
     LoadError.notFound ≠ LoadError.malformed ∧
     LoadError.readFailed ≠ LoadError.malformed) :=
  authenticate_load_failure _ "" .malformed rfl
